import Mathlib

/-!
Verification of the HTML-to-Google-Drive conversion service (src/index.js).

The development shallowly embeds the pure logic of the service:
* JS string normalization (`replace(/\s+/g, " ")`, `trim()`),
* a DOM model `Dom` (a node list; elements carry a tag and a child list),
* the two slide segmenters `extractSlidesFromHtml` and
  `extractSlidesFromHtml_SlideShow`,
* the slide layout command projection of POST /create-slides and
  POST /create-slides-show,
* the directionality style update of POST /upload-doc,
* the validation-then-external-calls traces of the four POST handlers.
-/

/-- The JavaScript whitespace class `\s` (also the set trimmed by
`String.prototype.trim`): space, tab, LF, VT, FF, CR, NBSP, and the
Unicode space separators plus line/paragraph separators and BOM. -/
def isWsJS (c : Char) : Bool :=
  c == ' ' || c == '\t' || c == '\n' || c == '\r' ||
  c.toNat == 0xB || c.toNat == 0xC || c.toNat == 0xA0 || c.toNat == 0x1680 ||
  (0x2000 ≤ c.toNat && c.toNat ≤ 0x200A) ||
  c.toNat == 0x2028 || c.toNat == 0x2029 || c.toNat == 0x202F ||
  c.toNat == 0x205F || c.toNat == 0x3000 || c.toNat == 0xFEFF

/-- Helper for `collapseWs`: the Bool records whether we are inside a
whitespace run whose single replacement space was already emitted. -/
def collapseGo : Bool → List Char → List Char
  | _, [] => []
  | inRun, c :: cs =>
    if isWsJS c then
      (if inRun then collapseGo true cs else ' ' :: collapseGo true cs)
    else c :: collapseGo false cs

/-- JS `s.replace(/\s+/g, " ")`: every maximal whitespace run becomes one space. -/
def collapseWs (s : String) : String := ⟨collapseGo false s.data⟩

/-- JS `s.trim()`: strip the JS whitespace class from both ends. -/
def trimJS (s : String) : String :=
  ⟨(((s.data.dropWhile isWsJS).reverse).dropWhile isWsJS).reverse⟩

/-- The normalization `text.replace(/\s+/g, " ").trim()` used throughout
`extractSlidesFromHtml` (src/index.js lines 30-31 and 51). -/
def normalizeJS (s : String) : String := trimJS (collapseWs s)

/-- A DOM node list. `textCons s rest` is a text node with data `s` followed
by `rest`; `elemCons tag children rest` is an element with the given
(uppercased, as in JSDOM `tagName`) tag and child list, followed by `rest`.
A document is the `Dom` of the body's child nodes. -/
inductive Dom where
  | nil : Dom
  | textCons (s : String) (rest : Dom) : Dom
  | elemCons (tag : String) (children : Dom) (rest : Dom) : Dom
deriving DecidableEq, Repr

/-- `textContent` of a node list: concatenation of all descendant text
node data, in document order. An element's `textContent` is
`textContentD` of its child list. -/
def textContentD : Dom → String
  | .nil => ""
  | .textCons s rest => s ++ textContentD rest
  | .elemCons _ cs rest => textContentD cs ++ textContentD rest

/-- `p.querySelector("strong")` (src/index.js line 28): the child list of the
first STRONG element among the descendants of a node list, in document
(pre-order) order; `none` when there is no STRONG descendant. -/
def findStrongD : Dom → Option Dom
  | .nil => none
  | .textCons _ rest => findStrongD rest
  | .elemCons t cs rest =>
    if t == "STRONG" then some cs
    else
      match findStrongD cs with
      | some r => some r
      | none => findStrongD rest

/-- `isStrongOnlyTitle` (src/index.js lines 27-33), applied to a paragraph
whose child list is `cs`: there is a STRONG descendant and the paragraph's
whole normalized text equals the STRONG's normalized text. -/
def isStrongOnlyTitle (cs : Dom) : Bool :=
  match findStrongD cs with
  | none => false
  | some st => normalizeJS (textContentD cs) == normalizeJS (textContentD st)

/-- A slide record {title, description} (spec section 3). -/
structure Slide where
  title : String
  description : String
deriving DecidableEq, Repr

/-- State of the title-delimited segmenter loop (src/index.js lines 37-53):
`done` are the slides already pushed and closed, `cur` the title of the
currently open slide (`lastSlide`), `buffer` the texts collected since it. -/
structure SegState where
  done : List Slide
  cur : Option String
  buffer : List String
deriving DecidableEq, Repr

/-- Closing the open slide (src/index.js line 41): its description becomes
`buffer.join("\n\n").trim()`. -/
def closeSlide (cur : Option String) (buffer : List String) : List Slide :=
  match cur with
  | none => []
  | some t => [⟨t, trimJS (String.intercalate "\n\n" buffer)⟩]

/-- Whether a body child element is a title boundary
(src/index.js line 38): `el.tagName === "P" && isStrongOnlyTitle(el)`. -/
def isBoundary (tag : String) (cs : Dom) : Bool :=
  tag == "P" && isStrongOnlyTitle cs

/-- One iteration of the loop body of `extractSlidesFromHtml`
(src/index.js lines 37-53) on an element with tag `t` and children `cs`. -/
def segStepE (st : SegState) (t : String) (cs : Dom) : SegState :=
  if isBoundary t cs then
    ⟨st.done ++ closeSlide st.cur st.buffer, some (trimJS (textContentD cs)), []⟩
  else
    let text := normalizeJS (textContentD cs)
    if text == "" then st else ⟨st.done, st.cur, st.buffer ++ [text]⟩

/-- The loop of `extractSlidesFromHtml` over `document.body.children`
(elements only — text nodes are skipped, as `.children` excludes them). -/
def segFold (st : SegState) : Dom → SegState
  | .nil => st
  | .textCons _ rest => segFold st rest
  | .elemCons t cs rest => segFold (segStepE st t cs) rest

/-- The epilogue of `extractSlidesFromHtml` (src/index.js lines 55-58):
flush trailing buffered text into the last slide, but only when the
buffer is non-empty; then list the slides in push order. -/
def finalizeSeg (st : SegState) : List Slide :=
  st.done ++
    (match st.cur with
     | none => []
     | some ttl =>
       [⟨ttl, if st.buffer.isEmpty then ""
              else trimJS (String.intercalate "\n\n" st.buffer)⟩])

/-- The slide list built by `extractSlidesFromHtml` before the final filter. -/
def slidesAllOf (body : Dom) : List Slide :=
  finalizeSeg (segFold ⟨[], none, []⟩ body)

/-- `extractSlidesFromHtml` (src/index.js lines 18-62): the title-delimited
segmenter, including the final filter
`slides.filter(s => s.title && typeof s.description === "string")`
(the description is always a string, so only non-empty titles matter). -/
def extractSlidesFromHtml (body : Dom) : List Slide :=
  (slidesAllOf body).filter (fun s => s.title != "")

/-- `document.querySelectorAll("h2")` together with each H2's following
sibling list: for every H2 element, in document (pre-order) order, the pair
of its child list and the `Dom` of its following siblings. -/
def collectH2 : Dom → List (Dom × Dom)
  | .nil => []
  | .textCons _ rest => collectH2 rest
  | .elemCons t cs rest =>
    (if t == "H2" then [(cs, rest)] else []) ++ (collectH2 cs ++ collectH2 rest)

/-- The `while (sibling && sibling.tagName !== "H2")` loop of
`extractSlidesFromHtml_SlideShow` (src/index.js lines 78-81):
`nextElementSibling` skips text nodes; each collected sibling contributes
its raw `textContent` plus a line break. -/
def descLoop : Dom → String
  | .nil => ""
  | .textCons _ rest => descLoop rest
  | .elemCons t cs rest =>
    if t == "H2" then "" else (textContentD cs ++ "\n") ++ descLoop rest

/-- `extractSlidesFromHtml_SlideShow` (src/index.js lines 64-90): one slide
per H2 element; title is the H2's trimmed text, description is the
trimmed concatenation of following-sibling texts up to the next H2. -/
def extractSlidesFromHtml_SlideShow (doc : Dom) : List Slide :=
  (collectH2 doc).map (fun p => ⟨trimJS (textContentD p.1), trimJS (descLoop p.2)⟩)

/-- Number of H2 elements in a document (all nesting levels). -/
def h2Count : Dom → Nat
  | .nil => 0
  | .textCons _ rest => h2Count rest
  | .elemCons t cs rest => (if t == "H2" then 1 else 0) + (h2Count cs + h2Count rest)

/-- Raw `textContent` of every H2 element, in document (pre-order) order. -/
def h2Texts : Dom → List String
  | .nil => []
  | .textCons _ rest => h2Texts rest
  | .elemCons t cs rest =>
    (if t == "H2" then [textContentD cs] else []) ++ (h2Texts cs ++ h2Texts rest)

/-- A size in points (`size` of `elementProperties`). -/
structure PtSize where
  height : Nat
  width : Nat
deriving DecidableEq, Repr

/-- An affine transform in points (`transform` of `elementProperties`;
the source always uses unit "PT"). -/
structure PtTransform where
  scaleX : Nat
  scaleY : Nat
  translateX : Nat
  translateY : Nat
deriving DecidableEq, Repr

/-- `elementProperties` of a createImage/createShape request. -/
structure ElementProps where
  pageObjectId : String
  size : PtSize
  transform : PtTransform
deriving DecidableEq, Repr

/-- One Slides API request of the layout batch (src/index.js lines 412-560
and 613-761): the five request kinds the projection emits. -/
inductive SlideRequest where
  | createSlide (objectId : String) (predefinedLayout : String)
  | createImage (objectId : String) (url : String) (props : ElementProps)
  | createShape (objectId : String) (shapeType : String) (props : ElementProps)
  | insertText (objectId : String) (text : String) (insertionIndex : Nat)
  | updateTextStyle (objectId : String) (fontSize : Nat) (bold : Bool) (styleFieldMask : String)
deriving DecidableEq, Repr

/-- `BACKGROUND_IMAGE_URL` (src/index.js lines 409 and 610). -/
def BACKGROUND_IMAGE_URL : String :=
  "https://9b05dd864822d678c9fcbed18bf8311c.cdn.bubble.io/f1753546339862x395890190803218200/background.PNG?_gl=1*1bmqctz*_gcl_au*MTgxNzI2MDE2OC4xNzQ2NDU3OTc5*_ga*MjAzNTQ2NTk5LjE2NzcyMzIwNjY.*_ga_BFPVR2DEE2*czE3NTM1MzQ0NTckbzIxOSRnMSR0MTc1MzU0NjAzNiRqNjAkbDAkaDA."

/-- `LOGO_IMAGE_URL` (src/index.js lines 410 and 611). -/
def LOGO_IMAGE_URL : String :=
  "https://9b05dd864822d678c9fcbed18bf8311c.cdn.bubble.io/f1753458006954x918763125344364000/46c94753-1589-47cd-8efa-cd023be6bd4a.png?_gl=1*zow64b*_gcl_au*MTgxNzI2MDE2OC4xNzQ2NDU3OTc5*_ga*MjAzNTQ2NTk5LjE2NzcyMzIwNjY.*_ga_BFPVR2DEE2*czE3NTM1MzQ0NTckbzIxOSRnMSR0MTc1MzU0NjAzNiRqNjAkbDAkaDA."

/-- The eleven requests pushed for the slide at 0-based `index` by the
`slidesData.forEach` of POST /create-slides (src/index.js lines 414-560).
The description text box sits 70pt from the top. -/
def slideBlockCreate (index : Nat) (s : Slide) : List SlideRequest :=
  let slideId := "slide_" ++ toString (index + 1)
  [ .createSlide slideId "BLANK",
    .createImage ("bg_" ++ slideId) BACKGROUND_IMAGE_URL ⟨slideId, ⟨405, 720⟩, ⟨1, 1, 0, 0⟩⟩,
    .createImage ("logo_" ++ slideId) LOGO_IMAGE_URL ⟨slideId, ⟨40, 40⟩, ⟨1, 1, 10, 340⟩⟩,
    .createShape ("footer_" ++ slideId) "TEXT_BOX" ⟨slideId, ⟨20, 200⟩, ⟨1, 1, 540, 370⟩⟩,
    .insertText ("footer_" ++ slideId) "HelpMeTeach.AI" 0,
    .createShape ("title_" ++ slideId) "TEXT_BOX" ⟨slideId, ⟨50, 600⟩, ⟨1, 1, 60, 50⟩⟩,
    .insertText ("title_" ++ slideId) s.title 0,
    .updateTextStyle ("title_" ++ slideId) 18 true "fontSize,bold",
    .createShape ("desc_" ++ slideId) "TEXT_BOX" ⟨slideId, ⟨80, 600⟩, ⟨1, 1, 60, 70⟩⟩,
    .insertText ("desc_" ++ slideId) s.description 0,
    .updateTextStyle ("desc_" ++ slideId) 14 false "fontSize,bold" ]

/-- The eleven requests pushed for the slide at 0-based `index` by the
`slidesData.forEach` of POST /create-slides-show (src/index.js lines
615-761). The description text box sits 100pt from the top. -/
def slideBlockShow (index : Nat) (s : Slide) : List SlideRequest :=
  let slideId := "slide_" ++ toString (index + 1)
  [ .createSlide slideId "BLANK",
    .createImage ("bg_" ++ slideId) BACKGROUND_IMAGE_URL ⟨slideId, ⟨405, 720⟩, ⟨1, 1, 0, 0⟩⟩,
    .createImage ("logo_" ++ slideId) LOGO_IMAGE_URL ⟨slideId, ⟨40, 40⟩, ⟨1, 1, 10, 340⟩⟩,
    .createShape ("footer_" ++ slideId) "TEXT_BOX" ⟨slideId, ⟨20, 200⟩, ⟨1, 1, 540, 370⟩⟩,
    .insertText ("footer_" ++ slideId) "HelpMeTeach.AI" 0,
    .createShape ("title_" ++ slideId) "TEXT_BOX" ⟨slideId, ⟨50, 600⟩, ⟨1, 1, 60, 50⟩⟩,
    .insertText ("title_" ++ slideId) s.title 0,
    .updateTextStyle ("title_" ++ slideId) 18 true "fontSize,bold",
    .createShape ("desc_" ++ slideId) "TEXT_BOX" ⟨slideId, ⟨80, 600⟩, ⟨1, 1, 60, 100⟩⟩,
    .insertText ("desc_" ++ slideId) s.description 0,
    .updateTextStyle ("desc_" ++ slideId) 14 false "fontSize,bold" ]

/-- The `forEach` of POST /create-slides starting at 0-based `index`. -/
def slideRequestsCreateFrom : Nat → List Slide → List SlideRequest
  | _, [] => []
  | i, s :: ss => slideBlockCreate i s ++ slideRequestsCreateFrom (i + 1) ss

/-- The full `slideRequests` batch of POST /create-slides. -/
def slideRequestsCreate (xs : List Slide) : List SlideRequest :=
  slideRequestsCreateFrom 0 xs

/-- The `forEach` of POST /create-slides-show starting at 0-based `index`. -/
def slideRequestsShowFrom : Nat → List Slide → List SlideRequest
  | _, [] => []
  | i, s :: ss => slideBlockShow i s ++ slideRequestsShowFrom (i + 1) ss

/-- The full `slideRequests` batch of POST /create-slides-show. -/
def slideRequestsShow (xs : List Slide) : List SlideRequest :=
  slideRequestsShowFrom 0 xs

/-- Is a request the slide-creation command? -/
def isCreateSlide : SlideRequest → Bool
  | .createSlide _ _ => true
  | _ => false

/-- Number of slide-creation commands in a batch. -/
def countCreateSlide (rs : List SlideRequest) : Nat :=
  (rs.filter isCreateSlide).length

/-- The object identifier a request creates, when it creates one. -/
def createdOf : SlideRequest → Option String
  | .createSlide oid _ => some oid
  | .createImage oid _ _ => some oid
  | .createShape oid _ _ => some oid
  | _ => none

/-- The object identifiers a request references: the parent page for
createImage/createShape, the target shape for insertText/updateTextStyle. -/
def refsOf : SlideRequest → List String
  | .createSlide _ _ => []
  | .createImage _ _ p => [p.pageObjectId]
  | .createShape _ _ p => [p.pageObjectId]
  | .insertText oid _ _ => [oid]
  | .updateTextStyle oid _ _ _ => [oid]

/-- Membership of a string in a list of strings, as a Bool. -/
def inListS (x : String) : List String → Bool
  | [] => false
  | y :: ys => x == y || inListS x ys

/-- Dependency-order checker: scanning the batch left to right with the
set `created` of identifiers already created, every reference must point
at an already-created identifier. -/
def depOkFrom : List String → List SlideRequest → Bool
  | _, [] => true
  | created, r :: rs =>
    (refsOf r).all (fun oid => inListS oid created) &&
      depOkFrom (created ++ (createdOf r).toList) rs

/-- The six object identifiers created by the block of 0-based slide `index`. -/
def blockIdsOf (index : Nat) : List String :=
  let slideId := "slide_" ++ toString (index + 1)
  [slideId, "bg_" ++ slideId, "logo_" ++ slideId, "footer_" ++ slideId,
   "title_" ++ slideId, "desc_" ++ slideId]

/-- Bool prefix test on character lists. -/
def isPrefB : List Char → List Char → Bool
  | [], _ => true
  | _ :: _, [] => false
  | a :: as, b :: bs => a == b && isPrefB as bs

/-- Bool substring test: does `n` occur contiguously inside `h`? -/
def substrB (n : List Char) : List Char → Bool
  | [] => isPrefB n []
  | c :: cs => isPrefB n (c :: cs) || substrB n cs

/-- JS `String.prototype.startsWith`, on the model's strings. -/
def strStartsWith (n h : String) : Bool := isPrefB n.data h.data

/-- Replace the vertical position of the description text box (the
createShape whose objectId starts with "desc_") by `y`; leave every other
request unchanged. Used to state that the two layout projections differ
only in that coordinate. -/
def setDescY (y : Nat) : SlideRequest → SlideRequest
  | .createShape oid st p =>
    if strStartsWith "desc_" oid then
      .createShape oid st ⟨p.pageObjectId, p.size,
        ⟨p.transform.scaleX, p.transform.scaleY, p.transform.translateX, y⟩⟩
    else .createShape oid st p
  | r => r

/-- Paragraph direction values of the Docs API. -/
inductive Direction where
  | RIGHT_TO_LEFT
  | LEFT_TO_RIGHT
deriving DecidableEq, Repr

/-- An index range of a Docs document. -/
structure DocRange where
  startIndex : Nat
  endIndex : Nat
deriving DecidableEq, Repr

/-- The single `updateParagraphStyle` request of POST /upload-doc. -/
structure ParagraphStyleUpdate where
  range : DocRange
  direction : Direction
  styleFieldMask : String
deriving DecidableEq, Repr

/-- `const isArabic = /[֐-׿؀-ۿ]/.test(html)`
(src/index.js line 105): some character of the HTML lies in the Hebrew
(U+0590-U+05FF) or Arabic (U+0600-U+06FF) block. -/
def isArabicTest (html : String) : Bool :=
  html.data.any (fun c =>
    (0x590 ≤ c.toNat && c.toNat ≤ 0x5FF) || (0x600 ≤ c.toNat && c.toNat ≤ 0x6FF))

/-- The claim's character predicate, as a Prop: a Hebrew or Arabic code point. -/
def hebrewOrArabic (c : Char) : Prop :=
  (0x590 ≤ c.toNat ∧ c.toNat ≤ 0x5FF) ∨ (0x600 ≤ c.toNat ∧ c.toNat ≤ 0x6FF)

instance (c : Char) : Decidable (hebrewOrArabic c) := by
  unfold hebrewOrArabic; infer_instance

/-- The `updateParagraphStyle` request built by POST /upload-doc
(src/index.js lines 142-160): range from index 1 (index 0 is the start of
the document) to the `endIndex` captured by the `documents.get` probe, and
direction selected by `isArabic`. -/
def uploadDocStyleUpdate (html : String) (probedEndIndex : Nat) : ParagraphStyleUpdate :=
  { range := ⟨1, probedEndIndex⟩
    direction := if isArabicTest html then .RIGHT_TO_LEFT else .LEFT_TO_RIGHT
    styleFieldMask := "direction" }

/-- JS truthiness of an optional request field: present and non-empty. -/
def truthy : Option String → Bool
  | none => false
  | some s => s != ""

/-- An observable step of a handler run: a 4xx response, the base64 decode
of the request HTML, an outbound call to an external service, or the final
JSON success response. -/
inductive HAction where
  | respondStatus (code : Nat) (msg : String)
  | decodeBase64
  | extCall (callee : String)
  | respondJsonUrl
deriving DecidableEq, Repr

/-- The step sequence of POST /upload-doc (src/index.js lines 94-174) on a
run where no downstream call throws: the required-field check precedes the
decode and every outbound call. -/
def uploadDocTrace (html_base64 access_token file_name : Option String) : List HAction :=
  if !truthy html_base64 || !truthy access_token || !truthy file_name then
    [.respondStatus 400 "Missing required fields."]
  else
    [.decodeBase64, .extCall "htmlToDocx", .extCall "fsWriteTemp",
     .extCall "driveFilesCreate", .extCall "fsUnlinkTemp",
     .extCall "docsDocumentsGet", .extCall "docsBatchUpdate", .respondJsonUrl]

/-- The step sequence of POST /create-styled-sheet (src/index.js lines
176-274) on a run where no downstream call throws. -/
def createStyledSheetTrace (access_token html_base64 : Option String) : List HAction :=
  if !truthy access_token || !truthy html_base64 then
    [.respondStatus 400 "Missing 'access_token' or 'html_base64'"]
  else
    [.decodeBase64, .extCall "sheetsSpreadsheetsCreate",
     .extCall "sheetsValuesUpdate", .extCall "sheetsBatchUpdate", .respondJsonUrl]

/-- The step sequence of POST /create-slides (src/index.js lines 376-575)
on a run where no downstream call throws; `doc` is the parsed body of the
decoded HTML. -/
def createSlidesTrace (access_token html_base64 : Option String) (doc : Dom) : List HAction :=
  if !truthy access_token || !truthy html_base64 then
    [.respondStatus 400 "Missing 'access_token' or 'html_base64'"]
  else if (extractSlidesFromHtml doc).isEmpty then
    [.decodeBase64, .respondStatus 400 "No valid slides found in HTML."]
  else
    [.decodeBase64, .extCall "slidesPresentationsCreate",
     .extCall "slidesPresentationsGet", .extCall "slidesBatchUpdateDeleteDefault",
     .extCall "slidesBatchUpdateLayout", .respondJsonUrl]

/-- The step sequence of POST /create-slides-show (src/index.js lines
577-776) on a run where no downstream call throws; `doc` is the parsed
body of the decoded HTML. -/
def createSlidesShowTrace (access_token html_base64 : Option String) (doc : Dom) : List HAction :=
  if !truthy access_token || !truthy html_base64 then
    [.respondStatus 400 "Missing 'access_token' or 'html_base64'"]
  else if (extractSlidesFromHtml_SlideShow doc).isEmpty then
    [.decodeBase64, .respondStatus 400 "No valid slides found in HTML."]
  else
    [.decodeBase64, .extCall "slidesPresentationsCreate",
     .extCall "slidesPresentationsGet", .extCall "slidesBatchUpdateDeleteDefault",
     .extCall "slidesBatchUpdateLayout", .respondJsonUrl]

/-- The document body of spec property 4.1's example: a bold-only paragraph
"Title A", a paragraph "text1", a bold-only paragraph "Title B", a
paragraph "text2". -/
def bodyC2 : Dom :=
  Dom.elemCons "P" (Dom.elemCons "STRONG" (Dom.textCons "Title A" Dom.nil) Dom.nil)
    (Dom.elemCons "P" (Dom.textCons "text1" Dom.nil)
      (Dom.elemCons "P" (Dom.elemCons "STRONG" (Dom.textCons "Title B" Dom.nil) Dom.nil)
        (Dom.elemCons "P" (Dom.textCons "text2" Dom.nil) Dom.nil)))

/-- Claim C2: on a body whose top-level children are a bold-only paragraph
"Title A", a paragraph "text1", a bold-only paragraph "Title B" and a
paragraph "text2", `extractSlidesFromHtml` returns exactly the two slides
{Title A, text1} and {Title B, text2}. -/
theorem claim_C2 :
    extractSlidesFromHtml bodyC2 =
      [⟨"Title A", "text1"⟩, ⟨"Title B", "text2"⟩] := by decide

/-- The document of spec property 4.2's example: h2 "A", p "x", h2 "B",
p "y", p "z". -/
def docC4 : Dom :=
  Dom.elemCons "H2" (Dom.textCons "A" Dom.nil)
    (Dom.elemCons "P" (Dom.textCons "x" Dom.nil)
      (Dom.elemCons "H2" (Dom.textCons "B" Dom.nil)
        (Dom.elemCons "P" (Dom.textCons "y" Dom.nil)
          (Dom.elemCons "P" (Dom.textCons "z" Dom.nil) Dom.nil))))

/-- Claim C4: on the document [h2 "A", p "x", h2 "B", p "y", p "z"],
`extractSlidesFromHtml_SlideShow` returns exactly
[{A, "x"}, {B, "y\nz"}]: each description concatenates each following
sibling's text plus a line break up to the next h2, and only the final
assembled string is trimmed. -/
theorem claim_C4 :
    extractSlidesFromHtml_SlideShow docC4 =
      [⟨"A", "x"⟩, ⟨"B", "y\nz"⟩] := by decide

/-- A body with one title boundary "T", two content paragraphs "a" and "b",
and a second boundary "U" closing the first slide. -/
def bodyC3 : Dom :=
  Dom.elemCons "P" (Dom.elemCons "STRONG" (Dom.textCons "T" Dom.nil) Dom.nil)
    (Dom.elemCons "P" (Dom.textCons "a" Dom.nil)
      (Dom.elemCons "P" (Dom.textCons "b" Dom.nil)
        (Dom.elemCons "P" (Dom.elemCons "STRONG" (Dom.textCons "U" Dom.nil) Dom.nil) Dom.nil)))

/-- Counterexample to claim C3: with two buffered content paragraphs "a"
and "b", the closed slide's description is "a\n\nb" — the buffer is joined
with a blank line (`join("\n\n")`), not a single newline, so it differs
from the claimed "a\nb". -/
theorem claim_C3_cex :
    extractSlidesFromHtml bodyC3 = [⟨"T", "a\n\nb"⟩, ⟨"U", ""⟩] ∧
      ("a\n\nb" : String) ≠ "a\nb" := by decide

/-- A body with a single bold-only paragraph whose text carries an inner
double space. -/
def bodyC8 : Dom :=
  Dom.elemCons "P" (Dom.elemCons "STRONG" (Dom.textCons "Title  A" Dom.nil) Dom.nil) Dom.nil

/-- Counterexample to claim C8: the paragraph "Title  A" (double space) is
classified as a boundary via the collapsing normalization, but the title
assigned to the slide is only trimmed (`el.textContent.trim()`), keeping
the double space, so it differs from the normalized text "Title A". -/
theorem claim_C8_cex :
    extractSlidesFromHtml bodyC8 = [⟨"Title  A", ""⟩] ∧
      normalizeJS "Title  A" = "Title A" ∧
      ("Title  A" : String) ≠ "Title A" := by decide

/-- A document with zero h2 elements but one bold-only paragraph. -/
def docC5 : Dom :=
  Dom.elemCons "P" (Dom.elemCons "STRONG" (Dom.textCons "T" Dom.nil) Dom.nil) Dom.nil

/-- Counterexample to claim C5: a zero-h2 document with a bold-only
paragraph makes POST /create-slides proceed to the Slides API calls (its
segmenter is title-delimited, not heading-delimited), so it does not take
the 400 "no valid slides" path even though the document has no h2. -/
theorem claim_C5_cex :
    h2Count docC5 = 0 ∧
      createSlidesTrace (some "tok") (some "aGk=") docC5 =
        [HAction.decodeBase64, HAction.extCall "slidesPresentationsCreate",
         HAction.extCall "slidesPresentationsGet",
         HAction.extCall "slidesBatchUpdateDeleteDefault",
         HAction.extCall "slidesBatchUpdateLayout", HAction.respondJsonUrl] ∧
      createSlidesTrace (some "tok") (some "aGk=") docC5 ≠
        [HAction.decodeBase64, HAction.respondStatus 400 "No valid slides found in HTML."] := by
  decide

/-- Claim C7: whenever a required field of a POST endpoint is omitted, the
handler's whole run is the single 400 response — the decode and every
outbound call come strictly after the field check, so none happens. -/
theorem claim_C7 (hb tok fn : Option String) (doc : Dom) :
    (hb = none ∨ tok = none ∨ fn = none →
      uploadDocTrace hb tok fn = [HAction.respondStatus 400 "Missing required fields."])
  ∧ (tok = none ∨ hb = none →
      createStyledSheetTrace tok hb =
        [HAction.respondStatus 400 "Missing 'access_token' or 'html_base64'"])
  ∧ (tok = none ∨ hb = none →
      createSlidesTrace tok hb doc =
        [HAction.respondStatus 400 "Missing 'access_token' or 'html_base64'"])
  ∧ (tok = none ∨ hb = none →
      createSlidesShowTrace tok hb doc =
        [HAction.respondStatus 400 "Missing 'access_token' or 'html_base64'"]) := by
  refine ⟨fun h => ?_, fun h => ?_, fun h => ?_, fun h => ?_⟩
  · rcases h with h | h | h <;> subst h <;> simp [uploadDocTrace, truthy]
  · rcases h with h | h <;> subst h <;> simp [createStyledSheetTrace, truthy]
  · rcases h with h | h <;> subst h <;> simp [createSlidesTrace, truthy]
  · rcases h with h | h <;> subst h <;> simp [createSlidesShowTrace, truthy]

/-- Witness for claim C7 at concrete requests each missing one field. -/
theorem claim_C7_witness :
    uploadDocTrace none (some "t") (some "f") =
      [HAction.respondStatus 400 "Missing required fields."] ∧
    createStyledSheetTrace none (some "h") =
      [HAction.respondStatus 400 "Missing 'access_token' or 'html_base64'"] ∧
    createSlidesTrace none (some "h") Dom.nil =
      [HAction.respondStatus 400 "Missing 'access_token' or 'html_base64'"] ∧
    createSlidesShowTrace none (some "h") Dom.nil =
      [HAction.respondStatus 400 "Missing 'access_token' or 'html_base64'"] :=
  ⟨(claim_C7 none (some "t") (some "f") Dom.nil).1 (Or.inl rfl),
   (claim_C7 (some "h") none (some "f") Dom.nil).2.1 (Or.inl rfl),
   (claim_C7 (some "h") none (some "f") Dom.nil).2.2.1 (Or.inl rfl),
   (claim_C7 (some "h") none (some "f") Dom.nil).2.2.2 (Or.inl rfl)⟩

/-- The regex test succeeds exactly when some character of the HTML lies in
the Hebrew or Arabic block. -/
theorem isArabicTest_iff (html : String) :
    isArabicTest html = true ↔ ∃ c ∈ html.data, hebrewOrArabic c := by
  simp [isArabicTest, List.any_eq_true, hebrewOrArabic]

/-- Claim C6: in POST /upload-doc, the single paragraph-direction update
sets RIGHT_TO_LEFT exactly when the HTML has a Hebrew (U+0590-U+05FF) or
Arabic (U+0600-U+06FF) code point and LEFT_TO_RIGHT otherwise, and its
range runs from index 1 (the first body index; index 0 is the document
start marker) to the endIndex captured by the document-length probe. -/
theorem claim_C6 (html : String) (probe : Nat) :
    ((∃ c ∈ html.data, hebrewOrArabic c) →
      (uploadDocStyleUpdate html probe).direction = Direction.RIGHT_TO_LEFT)
  ∧ ((∀ c ∈ html.data, ¬ hebrewOrArabic c) →
      (uploadDocStyleUpdate html probe).direction = Direction.LEFT_TO_RIGHT)
  ∧ (uploadDocStyleUpdate html probe).range = ⟨1, probe⟩
  ∧ (uploadDocStyleUpdate html probe).styleFieldMask = "direction" := by
  refine ⟨fun h => ?_, fun h => ?_, rfl, rfl⟩
  · simp [uploadDocStyleUpdate, (isArabicTest_iff html).mpr h]
  · have hfalse : isArabicTest html = false := by
      cases hA : isArabicTest html
      · rfl
      · obtain ⟨c, hc, hp⟩ := (isArabicTest_iff html).mp hA
        exact absurd hp (h c hc)
    simp [uploadDocStyleUpdate, hfalse]

/-- Witness for claim C6: a Hebrew-letter HTML gets RIGHT_TO_LEFT, a plain
ASCII HTML gets LEFT_TO_RIGHT. -/
theorem claim_C6_witness :
    (uploadDocStyleUpdate "א" 7).direction = Direction.RIGHT_TO_LEFT ∧
    (uploadDocStyleUpdate "hello" 3).direction = Direction.LEFT_TO_RIGHT :=
  ⟨(claim_C6 "א" 7).1 (by decide), (claim_C6 "hello" 3).2.1 (by decide)⟩

/-- There are as many collected (h2, siblings) pairs as H2 elements. -/
theorem collectH2_length (d : Dom) : (collectH2 d).length = h2Count d := by
  induction d with
  | nil => rfl
  | textCons s rest ih => simpa [collectH2, h2Count] using ih
  | elemCons t cs rest ihcs ihrest =>
    cases h : (t == "H2") <;> simp [collectH2, h2Count, h, ihcs, ihrest]
    omega

/-- The collected pairs carry exactly the H2 texts, in document order. -/
theorem collectH2_texts (d : Dom) :
    (collectH2 d).map (fun p => textContentD p.1) = h2Texts d := by
  induction d with
  | nil => rfl
  | textCons s rest ih => simpa [collectH2, h2Texts] using ih
  | elemCons t cs rest ihcs ihrest =>
    cases h : (t == "H2") <;> simp [collectH2, h2Texts, h, ihcs, ihrest]

/-- A document with no H2 element collects nothing. -/
theorem collectH2_eq_nil (d : Dom) (h : h2Count d = 0) : collectH2 d = [] := by
  have := collectH2_length d
  rw [h] at this
  exact List.eq_nil_of_length_eq_zero this

/-- Claim C10: the heading-delimited segmenter applies no output filtering:
its output length equals the number of h2 elements, its titles are the h2
texts (trimmed) in document order, a whitespace-only h2 still yields a
slide with empty title — while the title-delimited segmenter never emits a
slide with an empty title. -/
theorem claim_C10 (doc body : Dom) :
    (extractSlidesFromHtml_SlideShow doc).length = h2Count doc
  ∧ (extractSlidesFromHtml_SlideShow doc).map Slide.title = (h2Texts doc).map trimJS
  ∧ extractSlidesFromHtml_SlideShow
      (Dom.elemCons "H2" (Dom.textCons "   " Dom.nil) Dom.nil) = [⟨"", ""⟩]
  ∧ (∀ s ∈ extractSlidesFromHtml body, s.title ≠ "") := by
  refine ⟨?_, ?_, by decide, ?_⟩
  · simp [extractSlidesFromHtml_SlideShow, collectH2_length]
  · rw [extractSlidesFromHtml_SlideShow, List.map_map, ← collectH2_texts doc, List.map_map]
    rfl
  · intro s hs
    have hp := List.of_mem_filter hs
    simpa using hp

/-- Witness for claim C10: a slide produced by the title-delimited
segmenter on the example body has a non-empty title. -/
theorem claim_C10_witness : ("Title A" : String) ≠ "" :=
  (claim_C10 Dom.nil bodyC2).2.2.2 ⟨"Title A", "text1"⟩ (by decide)

/-- Amendment of claim C5: on a zero-h2 document with both required fields
present, POST /create-slides-show always takes the 400 "no valid slides"
path; POST /create-slides takes it exactly when its own (title-delimited)
segmenter finds no slides, which a zero-h2 document need not satisfy. -/
theorem claim_C5_amended (tok hb : Option String) (doc : Dom)
    (htok : truthy tok = true) (hhb : truthy hb = true) (h0 : h2Count doc = 0) :
    createSlidesShowTrace tok hb doc =
      [HAction.decodeBase64, HAction.respondStatus 400 "No valid slides found in HTML."]
  ∧ (createSlidesTrace tok hb doc =
      [HAction.decodeBase64, HAction.respondStatus 400 "No valid slides found in HTML."]
      ↔ extractSlidesFromHtml doc = []) := by
  have hnil : collectH2 doc = [] := collectH2_eq_nil doc h0
  constructor
  · simp [createSlidesShowTrace, htok, hhb, extractSlidesFromHtml_SlideShow, hnil]
  · constructor
    · intro h
      cases hE : (extractSlidesFromHtml doc).isEmpty
      · rw [createSlidesTrace] at h
        simp [htok, hhb, hE] at h
      · simpa using hE
    · intro h
      simp [createSlidesTrace, htok, hhb, h]

/-- Witness for claim C5's amendment at a concrete empty document. -/
theorem claim_C5_witness :
    createSlidesShowTrace (some "t") (some "aGk=") Dom.nil =
      [HAction.decodeBase64, HAction.respondStatus 400 "No valid slides found in HTML."] :=
  (claim_C5_amended (some "t") (some "aGk=") Dom.nil (by decide) (by decide) (by decide)).1

theorem inListS_append (x : String) (l1 l2 : List String) :
    inListS x (l1 ++ l2) = (inListS x l1 || inListS x l2) := by
  induction l1 with
  | nil => simp [inListS]
  | cons y ys ih => simp [inListS, ih, Bool.or_assoc]

theorem isPrefB_append_self : ∀ (n t : List Char), isPrefB n (n ++ t) = true := by
  intro n
  induction n with
  | nil => intro t; rfl
  | cons c cs ih => intro t; simp [isPrefB, ih]

theorem substrB_append_self : ∀ (pre n : List Char), substrB n (pre ++ n) = true := by
  intro pre
  induction pre with
  | nil =>
    intro n
    cases n with
    | nil => rfl
    | cons c cs =>
      have h := isPrefB_append_self (c :: cs) []
      simp at h
      simp [substrB, h]
  | cons p ps ih =>
    intro n
    simp [substrB, ih n]

theorem countCreateSlide_createFrom :
    ∀ (xs : List Slide) (i : Nat),
      countCreateSlide (slideRequestsCreateFrom i xs) = xs.length := by
  intro xs
  induction xs with
  | nil => intro i; rfl
  | cons s ss ih =>
    intro i
    have h := ih (i + 1)
    simp only [countCreateSlide] at h ⊢
    simp only [slideRequestsCreateFrom, List.filter_append, List.length_append]
    have hb : (List.filter isCreateSlide (slideBlockCreate i s)).length = 1 := by
      simp [slideBlockCreate, isCreateSlide]
    rw [hb, h, List.length_cons]
    omega

theorem countCreateSlide_showFrom :
    ∀ (xs : List Slide) (i : Nat),
      countCreateSlide (slideRequestsShowFrom i xs) = xs.length := by
  intro xs
  induction xs with
  | nil => intro i; rfl
  | cons s ss ih =>
    intro i
    have h := ih (i + 1)
    simp only [countCreateSlide] at h ⊢
    simp only [slideRequestsShowFrom, List.filter_append, List.length_append]
    have hb : (List.filter isCreateSlide (slideBlockShow i s)).length = 1 := by
      simp [slideBlockShow, isCreateSlide]
    rw [hb, h, List.length_cons]
    omega

theorem depOk_blockCreate (created : List String) (i : Nat) (s : Slide)
    (rest : List SlideRequest) :
    depOkFrom created (slideBlockCreate i s ++ rest) =
      depOkFrom (created ++ blockIdsOf i) rest := by
  simp [slideBlockCreate, blockIdsOf, depOkFrom, refsOf, createdOf,
    inListS_append, inListS, List.append_assoc]

theorem depOk_blockShow (created : List String) (i : Nat) (s : Slide)
    (rest : List SlideRequest) :
    depOkFrom created (slideBlockShow i s ++ rest) =
      depOkFrom (created ++ blockIdsOf i) rest := by
  simp [slideBlockShow, blockIdsOf, depOkFrom, refsOf, createdOf,
    inListS_append, inListS, List.append_assoc]

theorem depOk_createFrom :
    ∀ (xs : List Slide) (i : Nat) (created : List String),
      depOkFrom created (slideRequestsCreateFrom i xs) = true := by
  intro xs
  induction xs with
  | nil => intro i created; rfl
  | cons s ss ih =>
    intro i created
    rw [show slideRequestsCreateFrom i (s :: ss) =
          slideBlockCreate i s ++ slideRequestsCreateFrom (i + 1) ss from rfl,
      depOk_blockCreate]
    exact ih (i + 1) _

theorem depOk_showFrom :
    ∀ (xs : List Slide) (i : Nat) (created : List String),
      depOkFrom created (slideRequestsShowFrom i xs) = true := by
  intro xs
  induction xs with
  | nil => intro i created; rfl
  | cons s ss ih =>
    intro i created
    rw [show slideRequestsShowFrom i (s :: ss) =
          slideBlockShow i s ++ slideRequestsShowFrom (i + 1) ss from rfl,
      depOk_blockShow]
    exact ih (i + 1) _

theorem blockCreate_ids_ordinal (i : Nat) (s : Slide) :
    ∀ r ∈ slideBlockCreate i s, ∀ oid, createdOf r = some oid →
      substrB (toString (i + 1)).data oid.data = true := by
  intro r hr oid hoid
  simp only [slideBlockCreate, List.mem_cons, List.not_mem_nil, or_false] at hr
  rcases hr with rfl | rfl | rfl | rfl | rfl | rfl | rfl | rfl | rfl | rfl | rfl <;>
    simp only [createdOf] at hoid <;>
    first
    | exact Option.noConfusion hoid
    | (injection hoid with h
       subst h
       simp only [String.data_append, ← List.append_assoc]
       exact substrB_append_self _ _)

theorem blockShow_ids_ordinal (i : Nat) (s : Slide) :
    ∀ r ∈ slideBlockShow i s, ∀ oid, createdOf r = some oid →
      substrB (toString (i + 1)).data oid.data = true := by
  intro r hr oid hoid
  simp only [slideBlockShow, List.mem_cons, List.not_mem_nil, or_false] at hr
  rcases hr with rfl | rfl | rfl | rfl | rfl | rfl | rfl | rfl | rfl | rfl | rfl <;>
    simp only [createdOf] at hoid <;>
    first
    | exact Option.noConfusion hoid
    | (injection hoid with h
       subst h
       simp only [String.data_append, ← List.append_assoc]
       exact substrB_append_self _ _)

/-- Claim C1: for N slide records the layout projection of both slide
endpoints emits exactly N createSlide commands; every object identifier
created by the block of the slide with 1-based ordinal i+1 (0-based index
i) contains the decimal ordinal as a substring; and scanning either
emitted sequence left to right, every reference (parent page of an image
or shape, target of insertText/updateTextStyle) points at an identifier
created earlier in the sequence. -/
theorem claim_C1 (xs : List Slide) :
    countCreateSlide (slideRequestsCreate xs) = xs.length
  ∧ countCreateSlide (slideRequestsShow xs) = xs.length
  ∧ (∀ i s, ∀ r ∈ slideBlockCreate i s, ∀ oid, createdOf r = some oid →
      substrB (toString (i + 1)).data oid.data = true)
  ∧ (∀ i s, ∀ r ∈ slideBlockShow i s, ∀ oid, createdOf r = some oid →
      substrB (toString (i + 1)).data oid.data = true)
  ∧ depOkFrom [] (slideRequestsCreate xs) = true
  ∧ depOkFrom [] (slideRequestsShow xs) = true :=
  ⟨countCreateSlide_createFrom xs 0, countCreateSlide_showFrom xs 0,
   blockCreate_ids_ordinal, blockShow_ids_ordinal,
   depOk_createFrom xs 0 [], depOk_showFrom xs 0 []⟩

/-- Witness for claim C1: the identifier created by the first slide's
createSlide command contains the ordinal 1. -/
theorem claim_C1_witness :
    substrB (toString (0 + 1)).data ("slide_" ++ toString (0 + 1)).data = true :=
  (claim_C1 []).2.2.1 0 ⟨"t", "d"⟩
    (SlideRequest.createSlide ("slide_" ++ toString (0 + 1)) "BLANK")
    (by decide) ("slide_" ++ toString (0 + 1)) rfl

theorem strStartsWith_self (pre suf : String) :
    strStartsWith pre (pre ++ suf) = true := by
  rw [strStartsWith, String.data_append]
  exact isPrefB_append_self _ _

theorem strStartsWith_desc_footer (sid : String) :
    strStartsWith "desc_" ("footer_" ++ sid) = false := by
  have h1 : "desc_".data = 'd' :: "esc_".data := rfl
  have h2 : ("footer_" ++ sid).data = 'f' :: ("ooter_".data ++ sid.data) := by
    rw [String.data_append]
    rfl
  have h3 : ('d' == 'f') = false := by decide
  rw [strStartsWith, h1, h2]
  simp [isPrefB, h3]

theorem strStartsWith_desc_title (sid : String) :
    strStartsWith "desc_" ("title_" ++ sid) = false := by
  have h1 : "desc_".data = 'd' :: "esc_".data := rfl
  have h2 : ("title_" ++ sid).data = 't' :: ("itle_".data ++ sid.data) := by
    rw [String.data_append]
    rfl
  have h3 : ('d' == 't') = false := by decide
  rw [strStartsWith, h1, h2]
  simp [isPrefB, h3]

theorem blockShow_eq_map_create (i : Nat) (s : Slide) :
    slideBlockShow i s = (slideBlockCreate i s).map (setDescY 100) := by
  simp [slideBlockCreate, slideBlockShow, setDescY, strStartsWith_self,
    strStartsWith_desc_footer, strStartsWith_desc_title]

theorem blockCreate_eq_map_show (i : Nat) (s : Slide) :
    slideBlockCreate i s = (slideBlockShow i s).map (setDescY 70) := by
  simp [slideBlockCreate, slideBlockShow, setDescY, strStartsWith_self,
    strStartsWith_desc_footer, strStartsWith_desc_title]

theorem showFrom_eq_map_createFrom :
    ∀ (xs : List Slide) (i : Nat),
      slideRequestsShowFrom i xs = (slideRequestsCreateFrom i xs).map (setDescY 100) := by
  intro xs
  induction xs with
  | nil => intro i; rfl
  | cons s ss ih =>
    intro i
    simp only [slideRequestsShowFrom, slideRequestsCreateFrom, List.map_append,
      blockShow_eq_map_create, ih (i + 1)]

theorem createFrom_eq_map_showFrom :
    ∀ (xs : List Slide) (i : Nat),
      slideRequestsCreateFrom i xs = (slideRequestsShowFrom i xs).map (setDescY 70) := by
  intro xs
  induction xs with
  | nil => intro i; rfl
  | cons s ss ih =>
    intro i
    simp only [slideRequestsShowFrom, slideRequestsCreateFrom, List.map_append,
      blockCreate_eq_map_show, ih (i + 1)]

/-- Claim C9: on the same slide records the two endpoints' layout batches
are identical except for the description text box's vertical position —
replacing its translateY by 100pt turns the /create-slides batch into the
/create-slides-show batch, and replacing it by 70pt inverts that. -/
theorem claim_C9 (xs : List Slide) :
    slideRequestsShow xs = (slideRequestsCreate xs).map (setDescY 100)
  ∧ slideRequestsCreate xs = (slideRequestsShow xs).map (setDescY 70) :=
  ⟨showFrom_eq_map_createFrom xs 0, createFrom_eq_map_showFrom xs 0⟩

/-- Concatenation of two node lists (sibling sequences). -/
def domAppend : Dom → Dom → Dom
  | .nil, d => d
  | .textCons s r, d => .textCons s (domAppend r d)
  | .elemCons t cs r, d => .elemCons t cs (domAppend r d)

/-- No element of the node list is a title boundary. -/
def noBoundary : Dom → Bool
  | .nil => true
  | .textCons _ r => noBoundary r
  | .elemCons t cs r => !(isBoundary t cs) && noBoundary r

/-- The texts a non-boundary node list contributes to the buffer: each
element's normalized text, skipped when empty (src/index.js line 52). -/
def contentTexts : Dom → List String
  | .nil => []
  | .textCons _ r => contentTexts r
  | .elemCons _ cs r =>
    let tx := normalizeJS (textContentD cs)
    if tx == "" then contentTexts r else tx :: contentTexts r

theorem segFold_append (d1 d2 : Dom) :
    ∀ st : SegState, segFold st (domAppend d1 d2) = segFold (segFold st d1) d2 := by
  induction d1 with
  | nil => intro st; rfl
  | textCons s r ih => intro st; simpa [domAppend, segFold] using ih st
  | elemCons t cs r ihcs ihr => intro st; simpa [domAppend, segFold] using ihr _

theorem segFold_noBoundary (d : Dom) :
    ∀ st : SegState, noBoundary d = true →
      segFold st d = ⟨st.done, st.cur, st.buffer ++ contentTexts d⟩ := by
  induction d with
  | nil => intro st h; simp [segFold, contentTexts]
  | textCons s r ih =>
    intro st h
    rw [show noBoundary (Dom.textCons s r) = noBoundary r from rfl] at h
    simpa [segFold, contentTexts] using ih st h
  | elemCons t cs r ihcs ihr =>
    intro st h
    simp only [noBoundary, Bool.and_eq_true, Bool.not_eq_true'] at h
    obtain ⟨h1, h2⟩ := h
    rw [show segFold st (Dom.elemCons t cs r) = segFold (segStepE st t cs) r from rfl]
    cases htx : (normalizeJS (textContentD cs) == "") with
    | true =>
      have hstep : segStepE st t cs = st := by simp [segStepE, h1, htx]
      rw [hstep, ihr st h2]
      simp [contentTexts, htx]
    | false =>
      have hstep : segStepE st t cs =
          ⟨st.done, st.cur, st.buffer ++ [normalizeJS (textContentD cs)]⟩ := by
        simp [segStepE, h1, htx]
      rw [hstep, ihr _ h2]
      simp [contentTexts, htx]

theorem segFold_done_mono (d : Dom) :
    ∀ st : SegState, ∃ tail, (segFold st d).done = st.done ++ tail := by
  induction d with
  | nil => intro st; exact ⟨[], by simp [segFold]⟩
  | textCons s r ih => intro st; simpa [segFold] using ih st
  | elemCons t cs r ihcs ihr =>
    intro st
    obtain ⟨tail, htail⟩ := ihr (segStepE st t cs)
    rw [show segFold st (Dom.elemCons t cs r) = segFold (segStepE st t cs) r from rfl]
    by_cases hb : isBoundary t cs = true
    · refine ⟨closeSlide st.cur st.buffer ++ tail, ?_⟩
      rw [htail]
      simp [segStepE, hb, List.append_assoc]
    · have hb' : isBoundary t cs = false := by simpa using hb
      refine ⟨tail, ?_⟩
      rw [htail]
      have : (segStepE st t cs).done = st.done := by
        cases htx : (normalizeJS (textContentD cs) == "") <;> simp [segStepE, hb', htx]
      rw [this]

theorem finalize_head_of_done (st : SegState) (s : Slide) (ds : List Slide)
    (h : st.done = s :: ds) : (finalizeSeg st).head? = some s := by
  simp [finalizeSeg, h]

theorem segFold_head_title (d : Dom) :
    ∀ (st : SegState) (ttl : String), st.done = [] → st.cur = some ttl →
      ((finalizeSeg (segFold st d)).head?).map Slide.title = some ttl := by
  induction d with
  | nil =>
    intro st ttl h1 h2
    simp [segFold, finalizeSeg, h1, h2]
  | textCons s r ih =>
    intro st ttl h1 h2
    simpa [segFold] using ih st ttl h1 h2
  | elemCons t cs r ihcs ihr =>
    intro st ttl h1 h2
    rw [show segFold st (Dom.elemCons t cs r) = segFold (segStepE st t cs) r from rfl]
    by_cases hb : isBoundary t cs = true
    · have hdone : (segStepE st t cs).done =
          [⟨ttl, trimJS (String.intercalate "\n\n" st.buffer)⟩] := by
        simp [segStepE, hb, h1, closeSlide, h2]
      obtain ⟨tail, htail⟩ := segFold_done_mono r (segStepE st t cs)
      rw [hdone] at htail
      have hh := finalize_head_of_done _ _ _ htail
      simp [hh]
    · have hb' : isBoundary t cs = false := by simpa using hb
      have hdone : (segStepE st t cs).done = [] := by
        cases htx : (normalizeJS (textContentD cs) == "") <;>
          simp [segStepE, hb', htx, h1]
      have hcur : (segStepE st t cs).cur = some ttl := by
        cases htx : (normalizeJS (textContentD cs) == "") <;>
          simp [segStepE, hb', htx, h2]
      exact ihr _ ttl hdone hcur

/-- Amendment of claim C3: when a slide is closed by the next title
boundary, its description is the non-empty normalized buffered texts
joined by a blank line — `join("\n\n")`, two newline characters, not one —
then trimmed; when it is closed by the end of the body, the same holds
except that an empty buffer leaves the initial empty description. -/
theorem claim_C3_amended (ct mid ct2 rest : Dom)
    (h1 : isStrongOnlyTitle ct = true) (h2 : isStrongOnlyTitle ct2 = true)
    (hmid : noBoundary mid = true) :
    (slidesAllOf (Dom.elemCons "P" ct
        (domAppend mid (Dom.elemCons "P" ct2 rest)))).head? =
      some ⟨trimJS (textContentD ct),
        trimJS (String.intercalate "\n\n" (contentTexts mid))⟩
  ∧ (slidesAllOf (Dom.elemCons "P" ct mid)).head? =
      some ⟨trimJS (textContentD ct),
        if contentTexts mid = [] then ""
        else trimJS (String.intercalate "\n\n" (contentTexts mid))⟩ := by
  have hb1 : isBoundary "P" ct = true := by simp [isBoundary, h1]
  have hb2 : isBoundary "P" ct2 = true := by simp [isBoundary, h2]
  have hst0 : segStepE ⟨[], none, []⟩ "P" ct =
      ⟨[], some (trimJS (textContentD ct)), []⟩ := by
    simp [segStepE, hb1, closeSlide]
  have hmidFold : segFold ⟨[], some (trimJS (textContentD ct)), []⟩ mid =
      ⟨[], some (trimJS (textContentD ct)), contentTexts mid⟩ := by
    simpa using segFold_noBoundary mid _ hmid
  constructor
  · rw [slidesAllOf,
      show segFold ⟨[], none, []⟩
          (Dom.elemCons "P" ct (domAppend mid (Dom.elemCons "P" ct2 rest))) =
        segFold (segStepE ⟨[], none, []⟩ "P" ct)
          (domAppend mid (Dom.elemCons "P" ct2 rest)) from rfl,
      hst0, segFold_append, hmidFold,
      show segFold ⟨[], some (trimJS (textContentD ct)), contentTexts mid⟩
          (Dom.elemCons "P" ct2 rest) =
        segFold (segStepE ⟨[], some (trimJS (textContentD ct)), contentTexts mid⟩
          "P" ct2) rest from rfl]
    have hst2 : segStepE ⟨[], some (trimJS (textContentD ct)), contentTexts mid⟩
        "P" ct2 =
        ⟨[⟨trimJS (textContentD ct),
            trimJS (String.intercalate "\n\n" (contentTexts mid))⟩],
          some (trimJS (textContentD ct2)), []⟩ := by
      simp [segStepE, hb2, closeSlide]
    rw [hst2]
    obtain ⟨tail, htail⟩ := segFold_done_mono rest
      ⟨[⟨trimJS (textContentD ct),
          trimJS (String.intercalate "\n\n" (contentTexts mid))⟩],
        some (trimJS (textContentD ct2)), []⟩
    refine finalize_head_of_done _ _ tail ?_
    simpa using htail
  · rw [slidesAllOf,
      show segFold ⟨[], none, []⟩ (Dom.elemCons "P" ct mid) =
        segFold (segStepE ⟨[], none, []⟩ "P" ct) mid from rfl,
      hst0, hmidFold]
    cases hc : contentTexts mid with
    | nil => simp [finalizeSeg]
    | cons a as => simp [finalizeSeg]

/-- Witness for claim C3's amendment: title "T", buffered texts "a", "b",
closed by boundary "U" — the description is "a" and "b" joined by a blank
line. -/
theorem claim_C3_amended_witness :
    (slidesAllOf (Dom.elemCons "P"
        (Dom.elemCons "STRONG" (Dom.textCons "T" Dom.nil) Dom.nil)
        (domAppend
          (Dom.elemCons "P" (Dom.textCons "a" Dom.nil)
            (Dom.elemCons "P" (Dom.textCons "b" Dom.nil) Dom.nil))
          (Dom.elemCons "P"
            (Dom.elemCons "STRONG" (Dom.textCons "U" Dom.nil) Dom.nil)
            Dom.nil)))).head? =
      some ⟨trimJS (textContentD
          (Dom.elemCons "STRONG" (Dom.textCons "T" Dom.nil) Dom.nil)),
        trimJS (String.intercalate "\n\n" (contentTexts
          (Dom.elemCons "P" (Dom.textCons "a" Dom.nil)
            (Dom.elemCons "P" (Dom.textCons "b" Dom.nil) Dom.nil))))⟩ :=
  (claim_C3_amended
    (Dom.elemCons "STRONG" (Dom.textCons "T" Dom.nil) Dom.nil)
    (Dom.elemCons "P" (Dom.textCons "a" Dom.nil)
      (Dom.elemCons "P" (Dom.textCons "b" Dom.nil) Dom.nil))
    (Dom.elemCons "STRONG" (Dom.textCons "U" Dom.nil) Dom.nil)
    Dom.nil (by decide) (by decide) (by decide)).1

/-- Amendment of claim C8: the title assigned to a new slide is the
boundary paragraph's raw text content with only JS `trim()` applied — no
whitespace collapsing — while the collapsing normalization is used only to
classify the paragraph as a boundary. -/
theorem claim_C8_amended (ct rest : Dom) (h : isStrongOnlyTitle ct = true) :
    ((slidesAllOf (Dom.elemCons "P" ct rest)).head?).map Slide.title =
      some (trimJS (textContentD ct)) := by
  have hb : isBoundary "P" ct = true := by simp [isBoundary, h]
  rw [slidesAllOf,
    show segFold ⟨[], none, []⟩ (Dom.elemCons "P" ct rest) =
      segFold (segStepE ⟨[], none, []⟩ "P" ct) rest from rfl]
  have hdone : (segStepE ⟨[], none, []⟩ "P" ct).done = [] := by
    simp [segStepE, hb, closeSlide]
  have hcur : (segStepE ⟨[], none, []⟩ "P" ct).cur =
      some (trimJS (textContentD ct)) := by
    simp [segStepE, hb]
  exact segFold_head_title rest _ _ hdone hcur

/-- Witness for claim C8's amendment: the boundary paragraph with text
"Title  A" (double space) yields the trimmed — not collapsed — title. -/
theorem claim_C8_amended_witness :
    ((slidesAllOf (Dom.elemCons "P"
        (Dom.elemCons "STRONG" (Dom.textCons "Title  A" Dom.nil) Dom.nil)
        Dom.nil)).head?).map Slide.title =
      some (trimJS (textContentD
        (Dom.elemCons "STRONG" (Dom.textCons "Title  A" Dom.nil) Dom.nil))) :=
  claim_C8_amended
    (Dom.elemCons "STRONG" (Dom.textCons "Title  A" Dom.nil) Dom.nil)
    Dom.nil (by decide)
